import Mathlib

/-
Verification of the pattern-matching subsystem of slang
(src/source/binding/Patterns.cpp and src/include/slang/binding/Patterns.h).

The C++ code is shallowly embedded: machine integers become Nat with
explicit truncation, the arena-allocated pattern tree becomes an inductive
type, the mutable BindContext and EvalContext become explicitly threaded
state, and ConstantValue becomes a sum type with an explicit poisoned
(`bad`) alternative standing for the C++ nullptr ConstantValue.
-/

namespace Slang

/-- Two-state bit vector, mirroring slang `SVInt(bitWidth, value, isSigned)`
for the unsigned, no-unknown-bits values this subsystem constructs and
compares. `val` is kept reduced modulo `2 ^ width`. -/
structure SVInt where
  width : Nat
  val : Nat
deriving DecidableEq, Repr

/-- Mirrors the `SVInt` constructor, which truncates the given value to
the given bit width. -/
def SVInt.make (w v : Nat) : SVInt :=
  SVInt.mk w (v % 2 ^ w)

/-- Mirrors `SVInt::slice(msb, lsb)`: the inclusive bit range
`[lsb .. msb]`, of width `msb - lsb + 1`, taken from the value.  The
source calls it only with in-range indices (`msb = lsb + fieldWidth - 1`
with the field inside the packed aggregate). -/
def SVInt.slice (i : SVInt) (msb lsb : Nat) : SVInt :=
  SVInt.mk (msb + 1 - lsb) ((i.val >>> lsb) % 2 ^ (msb + 1 - lsb))

/-- Mirrors slang `ConstantValue`: the poisoned/invalid alternative
(`nullptr`, called `bad()` in the source), a packed integer, a tagged
union value (`CVUnion`: active member index plus payload), and an
unpacked aggregate (ordered element list). -/
inductive ConstantValue where
  | bad : ConstantValue
  | integer : SVInt → ConstantValue
  | unionVal : Nat → ConstantValue → ConstantValue
  | elements : List ConstantValue → ConstantValue

mutual

/-- Mirrors `ConstantValue::operator==`: variant-wise structural
comparison (two `bad` values compare equal, as `std::monostate` does;
integers compare as same-width two-state vectors, which is the only way
this subsystem compares them since a constant pattern is bound at the
type of the value it is compared with). -/
def ConstantValue.eqb : ConstantValue → ConstantValue → Bool
  | ConstantValue.bad, ConstantValue.bad => true
  | ConstantValue.integer a, ConstantValue.integer b => a == b
  | ConstantValue.unionVal a x, ConstantValue.unionVal b y =>
      a == b && ConstantValue.eqb x y
  | ConstantValue.elements xs, ConstantValue.elements ys =>
      ConstantValue.eqbList xs ys
  | _, _ => false

/-- Element-wise comparison of unpacked aggregates (lengths must agree). -/
def ConstantValue.eqbList : List ConstantValue → List ConstantValue → Bool
  | [], [] => true
  | x :: xs, y :: ys => ConstantValue.eqb x y && ConstantValue.eqbList xs ys
  | _, _ => false

end

/-- Mirrors `ConstantValue::isTrue`: an integer is true when nonzero;
every other alternative (including the poisoned value) is not true. -/
def ConstantValue.isTrue : ConstantValue → Bool
  | ConstantValue.integer i => i.val != 0
  | _ => false

/-- Mirrors `ConstantValue::bad()`. -/
def ConstantValue.isBad : ConstantValue → Bool
  | ConstantValue.bad => true
  | _ => false

mutual

/-- The slice of the external type system this subsystem consumes:
an error type, a packed scalar of known bit width, a packed struct
(ordered field list), and a tagged union (ordered field list). -/
inductive Ty where
  | error : Ty
  | scalar : Nat → Ty
  | structT : List Field → Ty
  | taggedUnion : List Field → Ty

/-- Mirrors slang `FieldSymbol`: a name, a declared offset (bit offset
from the LSB for packed aggregates, element index for unpacked ones,
member index for tagged unions), and the field type. -/
inductive Field where
  | mk : String → Nat → Ty → Field

end

def Field.name : Field → String
  | Field.mk n _ _ => n

def Field.offset : Field → Nat
  | Field.mk _ o _ => o

def Field.ty : Field → Ty
  | Field.mk _ _ t => t

mutual

/-- Mirrors `Type::getBitWidth` as far as the claims need it: a scalar
has its declared width and a packed aggregate the sum of its field
widths (the tagged-union case is modelled likewise; the claims only take
widths of scalar-typed fields). -/
def Ty.getBitWidth : Ty → Nat
  | Ty.error => 0
  | Ty.scalar w => w
  | Ty.structT fs => Ty.fieldsWidth fs
  | Ty.taggedUnion fs => Ty.fieldsWidth fs

def Ty.fieldsWidth : List Field → Nat
  | [] => 0
  | Field.mk _ _ t :: fs => Ty.getBitWidth t + Ty.fieldsWidth fs

end

/-- Mirrors slang `PatternVarSymbol`: a pattern variable carries its name
and the target type it was declared at. -/
structure PatternVarSymbol where
  name : String
  ty : Ty

/-- The part of slang `EvalContext` the evaluator touches: the stack of
locals created by `createLocal`.  Evaluation threads it explicitly. -/
structure EvalContext where
  locals : List (PatternVarSymbol × ConstantValue)

/-- Mirrors `EvalContext::createLocal(symbol, value)`. -/
def EvalContext.createLocal (ctx : EvalContext) (sym : PatternVarSymbol)
    (v : ConstantValue) : EvalContext :=
  EvalContext.mk ((sym, v) :: ctx.locals)

/-- The pattern tree of Patterns.h: `InvalidPattern` (optional child kept
for diagnostics), `WildcardPattern`, `ConstantPattern` (holding the
already-folded constant of its bound expression), `VariablePattern`,
`TaggedPattern` (union member plus optional nested pattern) and
`StructurePattern` (ordered field/sub-pattern pairs). -/
inductive Pattern where
  | invalid : Option Pattern → Pattern
  | wildcard : Pattern
  | constant : ConstantValue → Pattern
  | variableP : PatternVarSymbol → Pattern
  | tagged : Field → Option Pattern → Pattern
  | structureP : List (Field × Pattern) → Pattern

/-- Mirrors `Pattern::bad()`: true exactly for the Invalid kind. -/
def Pattern.bad : Pattern → Bool
  | Pattern.invalid _ => true
  | _ => false

/-- Mirrors `Pattern::badPattern(compilation, child)`. -/
def Pattern.badPattern (child : Option Pattern) : Pattern :=
  Pattern.invalid child

/-- The 1-bit true result `SVInt(1, 1, false)`. -/
def svTrue : ConstantValue := ConstantValue.integer (SVInt.mk 1 1)

/-- The 1-bit false result `SVInt(1, 0, false)`. -/
def svFalse : ConstantValue := ConstantValue.integer (SVInt.mk 1 0)

mutual

/-- Mirrors `Pattern::eval` together with the per-kind `evalImpl`
bodies from Patterns.cpp.  The EvalVisitor returns the poisoned value
for a bad (Invalid) pattern without visiting children; otherwise it
dispatches on the kind.  Wildcard always returns 1-bit true; Constant
compares its folded constant with the value; Variable captures the value
into a fresh local and returns 1-bit true; Tagged and Structure first
propagate a poisoned input.  A Tagged pattern read of a non-union value
and a Structure pattern read of a value that is neither unpacked nor an
integer would be `std::get` failures in the source (impossible for
well-typed values) and are modelled as the poisoned result. -/
def Pattern.eval : Pattern → EvalContext → ConstantValue →
    ConstantValue × EvalContext
  | Pattern.invalid _, ctx, _ => (ConstantValue.bad, ctx)
  | Pattern.wildcard, ctx, _ => (svTrue, ctx)
  | Pattern.constant c, ctx, v =>
      (ConstantValue.integer (SVInt.mk 1 (if ConstantValue.eqb c v then 1 else 0)), ctx)
  | Pattern.variableP sym, ctx, v => (svTrue, ctx.createLocal sym v)
  | Pattern.tagged member vp, ctx, v =>
      match v with
      | ConstantValue.bad => (ConstantValue.bad, ctx)
      | ConstantValue.unionVal activeMember payload =>
          if activeMember != member.offset then (svFalse, ctx)
          else
            match vp with
            | some p => Pattern.eval p ctx payload
            | none => (svTrue, ctx)
      | _ => (ConstantValue.bad, ctx)
  | Pattern.structureP pats, ctx, v =>
      match v with
      | ConstantValue.bad => (ConstantValue.bad, ctx)
      | ConstantValue.elements elems => evalFieldsUnpacked pats elems ctx
      | ConstantValue.integer cvi => evalFieldsPacked pats cvi ctx
      | _ => (ConstantValue.bad, ctx)

/-- The unpacked-value loop of `StructurePattern::evalImpl`: each
sub-pattern is evaluated against the element at the field's offset
(`elems[fp.field->offset]`; an out-of-range offset is undefined in the
source and modelled as the poisoned element), short-circuiting on the
first result that is not definitely true. -/
def evalFieldsUnpacked : List (Field × Pattern) → List ConstantValue →
    EvalContext → ConstantValue × EvalContext
  | [], _, ctx => (svTrue, ctx)
  | (f, p) :: rest, elems, ctx =>
      let r := Pattern.eval p ctx (elems.getD f.offset ConstantValue.bad)
      if r.1.isTrue then evalFieldsUnpacked rest elems r.2 else r

/-- The packed-value loop of `StructurePattern::evalImpl`: each
sub-pattern is evaluated against `cvi.slice(width + offset - 1, offset)`
where `offset` and `width` are the field's bit offset and bit width,
short-circuiting on the first result that is not definitely true. -/
def evalFieldsPacked : List (Field × Pattern) → SVInt → EvalContext →
    ConstantValue × EvalContext
  | [], _, ctx => (svTrue, ctx)
  | (f, p) :: rest, cvi, ctx =>
      let r := Pattern.eval p ctx
        (ConstantValue.integer (cvi.slice (Ty.getBitWidth f.ty + f.offset - 1) f.offset))
      if r.1.isTrue then evalFieldsPacked rest cvi r.2 else r

end

/-- The diagnostics this subsystem can report, with the arguments the
source streams into them.  `redefinition` records the duplicate name and
whether a `NoteDeclarationHere` note at the prior declaration was
attached; `unknownMember` records the missing name;
`patternStructTooMany` records the zero-based index of the syntax member
at whose source range it was reported. -/
inductive Diag where
  | redefinition : String → Bool → Diag
  | patternTaggedType : Diag
  | patternStructType : Diag
  | unknownMember : String → Diag
  | patternStructTooMany : Nat → Diag
  | patternStructTooFew : Diag
deriving DecidableEq, Repr

/-- The part of slang `BindContext` the binder touches: the diagnostic
sink and the head of the pending-pattern-temporaries chain
(`firstTempVar`, a singly linked list the source pushes onto with
`var->nextTemp = std::exchange(context.firstTempVar, var)`). -/
structure BindContext where
  diags : List Diag
  firstTempVar : List PatternVarSymbol

/-- Mirrors `BindContext::addDiag` (diagnostics accumulate in report
order). -/
def BindContext.addDiag (ctx : BindContext) (d : Diag) : BindContext :=
  BindContext.mk (ctx.diags ++ [d]) ctx.firstTempVar

/-- Mirrors the push of a freshly declared pattern variable onto the
context's pending-temporaries chain. -/
def BindContext.pushTemp (ctx : BindContext) (v : PatternVarSymbol) : BindContext :=
  BindContext.mk ctx.diags (v :: ctx.firstTempVar)

/-- Mirrors `Pattern::VarMap`, the map from pattern-variable name to its
declared symbol, modelled as an association list whose `emplace` refuses
duplicates. -/
abbrev VarMap := List (String × PatternVarSymbol)

/-- First symbol bound to the given name, if any (the map lookup
`VarMap::emplace` performs before inserting). -/
def VarMap.find : VarMap → String → Option PatternVarSymbol
  | [], _ => none
  | (n, s) :: rest, name => if n = name then some s else VarMap.find rest name

/-- Mirrors `Scope::find(memberName)` followed by `as<FieldSymbol>()` on
the field list of a struct or tagged-union scope: the first field with
the given name. -/
def findField : List Field → String → Option Field
  | [], _ => none
  | f :: rest, name => if f.name = name then some f else findField rest name

/-- The outcome of the external expression binder plus constant folder
that `ConstantPattern::fromSyntax` consumes: the bound expression is
bad, or it binds but `context.eval` fails to fold it to a constant, or
it folds to a constant value. -/
inductive ExprOutcome where
  | bad : ExprOutcome
  | notConstant : ExprOutcome
  | constant : ConstantValue → ExprOutcome

/-- The pattern-syntax input tree (`PatternSyntax` in the source).
A structure pattern's members are homogeneously ordered or named (the
source dispatches on the kind of the first member and casts the rest
accordingly, which the parser guarantees), so the two shapes are
separate constructors here. -/
inductive PatternStx where
  | parenthesized : PatternStx → PatternStx
  | wildcard : PatternStx
  | expression : ExprOutcome → PatternStx
  | variableP : String → PatternStx
  | tagged : String → Option PatternStx → PatternStx
  | structOrdered : List PatternStx → PatternStx
  | structNamed : List (String × PatternStx) → PatternStx

/-- Mirrors `ConstantPattern::fromSyntax`: if the expression is bad or
does not fold to a constant, an Invalid node with no child; otherwise a
Constant node holding the folded constant. -/
def ConstantPattern.fromStx (e : ExprOutcome) : Pattern :=
  match e with
  | ExprOutcome.bad => Pattern.badPattern none
  | ExprOutcome.notConstant => Pattern.badPattern none
  | ExprOutcome.constant v => Pattern.constant v

/-- Mirrors `VariablePattern::fromSyntax`: declare a fresh
`PatternVarSymbol` at the target type; when the name is non-empty,
insert it into the variable map (a duplicate reports `Redefinition` with
a note at the prior declaration and yields an Invalid node with no
child, leaving the map unchanged) and push the symbol onto the
pending-temporaries chain; an empty name skips both the map and the
chain. -/
def VariablePattern.fromStx (name : String) (targetType : Ty) (varMap : VarMap)
    (ctx : BindContext) : Pattern × VarMap × BindContext :=
  let var : PatternVarSymbol := PatternVarSymbol.mk name targetType
  if name.isEmpty then
    (Pattern.variableP var, varMap, ctx)
  else
    match varMap.find name with
    | some _ =>
        (Pattern.badPattern none, varMap, ctx.addDiag (Diag.redefinition name true))
    | none =>
        (Pattern.variableP var, (name, var) :: varMap, ctx.pushTemp var)

mutual

/-- Mirrors `Pattern::bind` together with `WildcardPattern::fromSyntax`,
`TaggedPattern::fromSyntax` and `StructurePattern::fromSyntax`.
Parenthesization unwraps transparently.  A tagged pattern requires a
tagged-union target (else `PatternTaggedType`, suppressed on an error
type) and an existing member (else `UnknownMember`, suppressed on an
empty name); a bad nested pattern wraps the freshly built Tagged node as
the child of an Invalid node.  A structure pattern requires a struct
target and a non-empty member list (else `PatternStructType`, suppressed
on an error type or an empty list); the pairs accumulated by the ordered
or named walk form a Structure node, wrapped as the child of an Invalid
node when any step went bad. -/
def Pattern.bind : PatternStx → Ty → VarMap → BindContext →
    Pattern × VarMap × BindContext
  | PatternStx.parenthesized p, t, vm, ctx => Pattern.bind p t vm ctx
  | PatternStx.wildcard, _, vm, ctx => (Pattern.wildcard, vm, ctx)
  | PatternStx.expression e, _, vm, ctx => (ConstantPattern.fromStx e, vm, ctx)
  | PatternStx.variableP name, t, vm, ctx => VariablePattern.fromStx name t vm ctx
  | PatternStx.tagged memberName pat, t, vm, ctx =>
      match t with
      | Ty.taggedUnion fields =>
          match findField fields memberName with
          | none =>
              if memberName.isEmpty then (Pattern.badPattern none, vm, ctx)
              else (Pattern.badPattern none, vm, ctx.addDiag (Diag.unknownMember memberName))
          | some field =>
              match pat with
              | none => (Pattern.tagged field none, vm, ctx)
              | some ps =>
                  let r := Pattern.bind ps field.ty vm ctx
                  let result := Pattern.tagged field (some r.1)
                  if r.1.bad then (Pattern.badPattern (some result), r.2.1, r.2.2)
                  else (result, r.2.1, r.2.2)
      | Ty.error => (Pattern.badPattern none, vm, ctx)
      | _ => (Pattern.badPattern none, vm, ctx.addDiag Diag.patternTaggedType)
  | PatternStx.structOrdered members, t, vm, ctx =>
      match t with
      | Ty.structT fields =>
          match members with
          | [] => (Pattern.badPattern none, vm, ctx)
          | m :: ms =>
              let r := bindOrdered (m :: ms) fields 0 vm ctx
              let result := Pattern.structureP r.1
              if r.2.1 then (Pattern.badPattern (some result), r.2.2.1, r.2.2.2)
              else (result, r.2.2.1, r.2.2.2)
      | Ty.error => (Pattern.badPattern none, vm, ctx)
      | _ =>
          match members with
          | [] => (Pattern.badPattern none, vm, ctx)
          | _ :: _ => (Pattern.badPattern none, vm, ctx.addDiag Diag.patternStructType)
  | PatternStx.structNamed members, t, vm, ctx =>
      match t with
      | Ty.structT fields =>
          match members with
          | [] => (Pattern.badPattern none, vm, ctx)
          | m :: ms =>
              let r := bindNamed (m :: ms) fields vm ctx
              let result := Pattern.structureP r.1
              if r.2.1 then (Pattern.badPattern (some result), r.2.2.1, r.2.2.2)
              else (result, r.2.2.1, r.2.2.2)
      | Ty.error => (Pattern.badPattern none, vm, ctx)
      | _ =>
          match members with
          | [] => (Pattern.badPattern none, vm, ctx)
          | _ :: _ => (Pattern.badPattern none, vm, ctx.addDiag Diag.patternStructType)

/-- The ordered-member loop of `StructurePattern::fromSyntax`: walk the
syntax members and the declared fields in lock step, binding each member
at the corresponding field's type and accumulating the pairs and a bad
flag; running out of fields reports `PatternStructTooMany` at the
current member's index and stops consuming (the source `break`s);
running out of members with fields left reports `PatternStructTooFew`.
`idx` is the zero-based index of the first member of the remaining list
within the whole member list. -/
def bindOrdered : List PatternStx → List Field → Nat → VarMap → BindContext →
    List (Field × Pattern) × Bool × VarMap × BindContext
  | [], fields, _, vm, ctx =>
      match fields with
      | [] => ([], false, vm, ctx)
      | _ :: _ => ([], true, vm, ctx.addDiag Diag.patternStructTooFew)
  | _ :: _, [], idx, vm, ctx =>
      ([], true, vm, ctx.addDiag (Diag.patternStructTooMany idx))
  | m :: ms, f :: fs, idx, vm, ctx =>
      let r := Pattern.bind m f.ty vm ctx
      let rest := bindOrdered ms fs (idx + 1) r.2.1 r.2.2
      ((f, r.1) :: rest.1, (r.1.bad || rest.2.1), rest.2.2.1, rest.2.2.2)

/-- The named-member loop of `StructurePattern::fromSyntax`: look each
named member up among the declared fields; a missing field reports
`UnknownMember` (suppressed on an empty name), sets the bad flag and
skips the pair; a found field binds the member's pattern at the field's
type and appends the pair regardless of its own validity. -/
def bindNamed : List (String × PatternStx) → List Field → VarMap → BindContext →
    List (Field × Pattern) × Bool × VarMap × BindContext
  | [], _, vm, ctx => ([], false, vm, ctx)
  | (memberName, mp) :: ms, fields, vm, ctx =>
      match findField fields memberName with
      | none =>
          let ctx1 := if memberName.isEmpty then ctx
                      else ctx.addDiag (Diag.unknownMember memberName)
          let rest := bindNamed ms fields vm ctx1
          (rest.1, true, rest.2.2)
      | some field =>
          let r := Pattern.bind mp field.ty vm ctx
          let rest := bindNamed ms fields r.2.1 r.2.2
          ((field, r.1) :: rest.1, (r.1.bad || rest.2.1), rest.2.2)

end

/-- Claim C1 counterexample: evaluating a Wildcard pattern against the
poisoned input value returns the 1-bit true result, not the poisoned
sentinel — `WildcardPattern::evalImpl` never inspects the value.  So it
is false that every pattern kind propagates poison. -/
theorem C1_counterexample :
    Pattern.eval Pattern.wildcard (EvalContext.mk []) ConstantValue.bad
        = (svTrue, EvalContext.mk [])
    ∧ svTrue ≠ ConstantValue.bad := by
  exact ⟨rfl, by simp [svTrue]⟩

/-- Claim C1 as amended: only the Invalid, Tagged and Structure pattern
kinds return the poisoned sentinel on a poisoned input value; Wildcard
and Variable return a 1-bit true regardless (Variable captures the
poisoned value), and Constant returns the 1-bit result of comparing its
folded constant with the poisoned value (1-bit false whenever that
comparison is false). -/
theorem C1_amended_poison_propagation :
    (∀ (ctx : EvalContext) (child : Option Pattern),
        Pattern.eval (Pattern.invalid child) ctx ConstantValue.bad
          = (ConstantValue.bad, ctx))
    ∧ (∀ (ctx : EvalContext) (member : Field) (vp : Option Pattern),
        Pattern.eval (Pattern.tagged member vp) ctx ConstantValue.bad
          = (ConstantValue.bad, ctx))
    ∧ (∀ (ctx : EvalContext) (pats : List (Field × Pattern)),
        Pattern.eval (Pattern.structureP pats) ctx ConstantValue.bad
          = (ConstantValue.bad, ctx))
    ∧ (∀ (ctx : EvalContext),
        Pattern.eval Pattern.wildcard ctx ConstantValue.bad = (svTrue, ctx))
    ∧ (∀ (ctx : EvalContext) (sym : PatternVarSymbol),
        Pattern.eval (Pattern.variableP sym) ctx ConstantValue.bad
          = (svTrue, ctx.createLocal sym ConstantValue.bad))
    ∧ (∀ (ctx : EvalContext) (c : ConstantValue),
        ConstantValue.eqb c ConstantValue.bad = false →
        Pattern.eval (Pattern.constant c) ctx ConstantValue.bad = (svFalse, ctx)) := by
  refine ⟨fun _ _ => rfl, fun _ _ _ => rfl, fun _ _ => rfl, fun _ => rfl,
    fun _ _ => rfl, fun ctx c h => ?_⟩
  simp [Pattern.eval, h, svFalse]

/-- Witness for the amended C1: the constant-pattern conjunct at the
concrete constant `1'b0` against the poisoned value. -/
theorem C1_amended_witness :
    ConstantValue.eqb (ConstantValue.integer (SVInt.mk 1 0)) ConstantValue.bad = false
    ∧ Pattern.eval (Pattern.constant (ConstantValue.integer (SVInt.mk 1 0)))
        (EvalContext.mk []) ConstantValue.bad = (svFalse, EvalContext.mk []) :=
  ⟨rfl, C1_amended_poison_propagation.2.2.2.2.2 (EvalContext.mk [])
      (ConstantValue.integer (SVInt.mk 1 0)) rfl⟩

/-- Claim C2: evaluating a Structure pattern against a packed integer
value evaluates each field sub-pattern against the inclusive bit slice
`[offset + width - 1, offset]` of the value; concretely, over the 8-bit
value 0xB7 with fields a (offset 0, width 4) and b (offset 4, width 4),
the pattern `'{a: 7, b: 11}` evaluates to 1-bit true and `'{a: 7, b: 10}`
to 1-bit false. -/
theorem C2_packed_bit_slicing :
    (∀ (f : Field) (p : Pattern) (rest : List (Field × Pattern)) (cvi : SVInt)
        (ctx : EvalContext),
        evalFieldsPacked ((f, p) :: rest) cvi ctx =
          (let r := Pattern.eval p ctx (ConstantValue.integer
              (cvi.slice (Ty.getBitWidth f.ty + f.offset - 1) f.offset))
           if r.1.isTrue then evalFieldsPacked rest cvi r.2 else r))
    ∧ (Pattern.eval (Pattern.structureP
          [(Field.mk "a" 0 (Ty.scalar 4),
              Pattern.constant (ConstantValue.integer (SVInt.mk 4 7))),
           (Field.mk "b" 4 (Ty.scalar 4),
              Pattern.constant (ConstantValue.integer (SVInt.mk 4 11)))])
          (EvalContext.mk []) (ConstantValue.integer (SVInt.mk 8 183))).1 = svTrue
    ∧ (Pattern.eval (Pattern.structureP
          [(Field.mk "a" 0 (Ty.scalar 4),
              Pattern.constant (ConstantValue.integer (SVInt.mk 4 7))),
           (Field.mk "b" 4 (Ty.scalar 4),
              Pattern.constant (ConstantValue.integer (SVInt.mk 4 10)))])
          (EvalContext.mk []) (ConstantValue.integer (SVInt.mk 8 183))).1 = svFalse :=
  ⟨fun _ _ _ _ _ => rfl, rfl, rfl⟩

/-- Claim C4: a Tagged pattern evaluated against a non-poisoned union
value returns 1-bit false with no side effect when the active-member
discriminant differs from the pattern's target member (the nested
pattern is not evaluated); on a matching discriminant the result is the
nested pattern's evaluation against the active payload when a nested
pattern exists, and 1-bit true with no side effect otherwise. -/
theorem C4_tagged_eval :
    (∀ (member : Field) (vp : Option Pattern) (ctx : EvalContext) (d : Nat)
        (payload : ConstantValue),
        d ≠ member.offset →
        Pattern.eval (Pattern.tagged member vp) ctx (ConstantValue.unionVal d payload)
          = (svFalse, ctx))
    ∧ (∀ (member : Field) (p : Pattern) (ctx : EvalContext) (payload : ConstantValue),
        Pattern.eval (Pattern.tagged member (some p)) ctx
            (ConstantValue.unionVal member.offset payload)
          = Pattern.eval p ctx payload)
    ∧ (∀ (member : Field) (ctx : EvalContext) (payload : ConstantValue),
        Pattern.eval (Pattern.tagged member none) ctx
            (ConstantValue.unionVal member.offset payload)
          = (svTrue, ctx)) := by
  refine ⟨fun member vp ctx d payload h => ?_, fun member p ctx payload => ?_,
    fun member ctx payload => ?_⟩
  · cases vp <;> simp [Pattern.eval, h]
  · simp [Pattern.eval, bne_self_eq_false]
  · simp [Pattern.eval, bne_self_eq_false]

/-- Witness for C4: the mismatch conjunct at a concrete member of offset
1 against a union value whose active member is 0 and whose nested
pattern is a Variable capture: the result is 1-bit false and the
evaluation context is unchanged (no capture occurred). -/
theorem C4_tagged_eval_witness :
    (0 : Nat) ≠ (Field.mk "m" 1 (Ty.scalar 1)).offset
    ∧ Pattern.eval
        (Pattern.tagged (Field.mk "m" 1 (Ty.scalar 1))
          (some (Pattern.variableP (PatternVarSymbol.mk "y" (Ty.scalar 1)))))
        (EvalContext.mk []) (ConstantValue.unionVal 0 (ConstantValue.integer (SVInt.mk 1 1)))
      = (svFalse, EvalContext.mk []) :=
  ⟨by decide, C4_tagged_eval.1 (Field.mk "m" 1 (Ty.scalar 1))
      (some (Pattern.variableP (PatternVarSymbol.mk "y" (Ty.scalar 1))))
      (EvalContext.mk []) 0 (ConstantValue.integer (SVInt.mk 1 1)) (by decide)⟩

/-- Claim C3: evaluating a Structure pattern against a non-poisoned
value (packed integer or unpacked element list) walks the field/pattern
pairs in order: the first sub-result that is not definitely true is
returned as is, together with the evaluation context as it stood right
after that sub-evaluation — later sub-patterns are not evaluated and
cause no capture side effects; a definitely-true sub-result continues
with the remaining pairs; an exhausted list returns 1-bit true. -/
theorem C3_structure_short_circuit :
    (∀ (pats : List (Field × Pattern)) (ctx : EvalContext) (cvi : SVInt),
        Pattern.eval (Pattern.structureP pats) ctx (ConstantValue.integer cvi)
          = evalFieldsPacked pats cvi ctx)
    ∧ (∀ (pats : List (Field × Pattern)) (ctx : EvalContext)
        (elems : List ConstantValue),
        Pattern.eval (Pattern.structureP pats) ctx (ConstantValue.elements elems)
          = evalFieldsUnpacked pats elems ctx)
    ∧ (∀ (f : Field) (p : Pattern) (rest : List (Field × Pattern)) (cvi : SVInt)
        (ctx ctx2 : EvalContext) (cv : ConstantValue),
        Pattern.eval p ctx (ConstantValue.integer
            (cvi.slice (Ty.getBitWidth f.ty + f.offset - 1) f.offset)) = (cv, ctx2) →
        cv.isTrue = false →
        evalFieldsPacked ((f, p) :: rest) cvi ctx = (cv, ctx2))
    ∧ (∀ (f : Field) (p : Pattern) (rest : List (Field × Pattern)) (cvi : SVInt)
        (ctx ctx2 : EvalContext) (cv : ConstantValue),
        Pattern.eval p ctx (ConstantValue.integer
            (cvi.slice (Ty.getBitWidth f.ty + f.offset - 1) f.offset)) = (cv, ctx2) →
        cv.isTrue = true →
        evalFieldsPacked ((f, p) :: rest) cvi ctx = evalFieldsPacked rest cvi ctx2)
    ∧ (∀ (f : Field) (p : Pattern) (rest : List (Field × Pattern))
        (elems : List ConstantValue) (ctx ctx2 : EvalContext) (cv : ConstantValue),
        Pattern.eval p ctx (elems.getD f.offset ConstantValue.bad) = (cv, ctx2) →
        cv.isTrue = false →
        evalFieldsUnpacked ((f, p) :: rest) elems ctx = (cv, ctx2))
    ∧ (∀ (f : Field) (p : Pattern) (rest : List (Field × Pattern))
        (elems : List ConstantValue) (ctx ctx2 : EvalContext) (cv : ConstantValue),
        Pattern.eval p ctx (elems.getD f.offset ConstantValue.bad) = (cv, ctx2) →
        cv.isTrue = true →
        evalFieldsUnpacked ((f, p) :: rest) elems ctx = evalFieldsUnpacked rest elems ctx2)
    ∧ (∀ (cvi : SVInt) (ctx : EvalContext),
        evalFieldsPacked [] cvi ctx = (svTrue, ctx))
    ∧ (∀ (elems : List ConstantValue) (ctx : EvalContext),
        evalFieldsUnpacked [] elems ctx = (svTrue, ctx)) := by
  refine ⟨fun _ _ _ => rfl, fun _ _ _ => rfl,
    fun f p rest cvi ctx ctx2 cv h1 h2 => ?_,
    fun f p rest cvi ctx ctx2 cv h1 h2 => ?_,
    fun f p rest elems ctx ctx2 cv h1 h2 => ?_,
    fun f p rest elems ctx ctx2 cv h1 h2 => ?_,
    fun _ _ => rfl, fun _ _ => rfl⟩
  · simp [evalFieldsPacked, h1, h2]
  · simp [evalFieldsPacked, h1, h2]
  · simp only [evalFieldsUnpacked, h1]
    simp [h2]
  · simp only [evalFieldsUnpacked, h1]
    simp [h2]

/-- Witness for C3: a Structure pattern whose first sub-pattern is a
mismatching constant and whose second is a Variable capture, evaluated
against the packed 2-bit value 0b11: the result is the first
sub-result (1-bit false) and the evaluation context is returned exactly
as the first sub-evaluation left it — empty, so the capture of the
second sub-pattern never happened. -/
theorem C3_structure_short_circuit_witness :
    Pattern.eval (Pattern.constant (ConstantValue.integer (SVInt.mk 1 0)))
        (EvalContext.mk [])
        (ConstantValue.integer ((SVInt.mk 2 3).slice
          (Ty.getBitWidth (Field.mk "a" 0 (Ty.scalar 1)).ty
            + (Field.mk "a" 0 (Ty.scalar 1)).offset - 1)
          (Field.mk "a" 0 (Ty.scalar 1)).offset))
      = (svFalse, EvalContext.mk [])
    ∧ ConstantValue.isTrue svFalse = false
    ∧ evalFieldsPacked
        [(Field.mk "a" 0 (Ty.scalar 1),
            Pattern.constant (ConstantValue.integer (SVInt.mk 1 0))),
         (Field.mk "b" 1 (Ty.scalar 1),
            Pattern.variableP (PatternVarSymbol.mk "y" (Ty.scalar 1)))]
        (SVInt.mk 2 3) (EvalContext.mk [])
      = (svFalse, EvalContext.mk []) :=
  ⟨rfl, rfl,
    C3_structure_short_circuit.2.2.1 (Field.mk "a" 0 (Ty.scalar 1))
      (Pattern.constant (ConstantValue.integer (SVInt.mk 1 0)))
      [(Field.mk "b" 1 (Ty.scalar 1),
          Pattern.variableP (PatternVarSymbol.mk "y" (Ty.scalar 1)))]
      (SVInt.mk 2 3) (EvalContext.mk []) (EvalContext.mk []) svFalse rfl rfl⟩

/-- Claim C6: binding two Variable patterns with the same non-empty name
against one variable map: the first bind yields the non-Invalid Variable
node, inserts the name into the map and pushes the symbol onto the
pending-temporaries chain; the second bind yields an Invalid node with
no child, records a Redefinition diagnostic with a note at the prior
declaration, and leaves the map — including the first mapping — exactly
as it was. -/
theorem C6_variable_redefinition :
    ∀ (name : String) (t1 t2 : Ty) (vm : VarMap) (ctx : BindContext),
      name.isEmpty = false →
      vm.find name = none →
      VariablePattern.fromStx name t1 vm ctx
          = (Pattern.variableP (PatternVarSymbol.mk name t1),
             (name, PatternVarSymbol.mk name t1) :: vm,
             ctx.pushTemp (PatternVarSymbol.mk name t1))
      ∧ Pattern.bad (Pattern.variableP (PatternVarSymbol.mk name t1)) = false
      ∧ (∀ (ctx2 : BindContext),
          VariablePattern.fromStx name t2
              ((name, PatternVarSymbol.mk name t1) :: vm) ctx2
            = (Pattern.invalid none,
               (name, PatternVarSymbol.mk name t1) :: vm,
               ctx2.addDiag (Diag.redefinition name true))) := by
  intro name t1 t2 vm ctx hne hfind
  refine ⟨?_, rfl, fun ctx2 => ?_⟩
  · simp [VariablePattern.fromStx, hne, hfind]
  · simp [VariablePattern.fromStx, VarMap.find, hne, Pattern.badPattern]

/-- Witness for C6: the two binds at the concrete name "x". -/
theorem C6_variable_redefinition_witness :
    String.isEmpty "x" = false
    ∧ VarMap.find [] "x" = none
    ∧ VariablePattern.fromStx "x" (Ty.scalar 1) [] (BindContext.mk [] [])
        = (Pattern.variableP (PatternVarSymbol.mk "x" (Ty.scalar 1)),
           [("x", PatternVarSymbol.mk "x" (Ty.scalar 1))],
           (BindContext.mk [] []).pushTemp (PatternVarSymbol.mk "x" (Ty.scalar 1)))
    ∧ VariablePattern.fromStx "x" (Ty.scalar 1)
          [("x", PatternVarSymbol.mk "x" (Ty.scalar 1))] (BindContext.mk [] [])
        = (Pattern.invalid none,
           [("x", PatternVarSymbol.mk "x" (Ty.scalar 1))],
           (BindContext.mk [] []).addDiag (Diag.redefinition "x" true)) :=
  ⟨rfl, rfl,
    (C6_variable_redefinition "x" (Ty.scalar 1) (Ty.scalar 1) [] (BindContext.mk [] [])
        rfl rfl).1,
    (C6_variable_redefinition "x" (Ty.scalar 1) (Ty.scalar 1) [] (BindContext.mk [] [])
        rfl rfl).2.2 (BindContext.mk [] [])⟩

/-- Claim C7: binding a Tagged pattern against a tagged-union target
whose named member exists, where the recursively bound nested pattern
comes back bad, still builds the complete Tagged node and returns an
Invalid node whose child is that Tagged node, with the variable map and
context as the nested bind left them. -/
theorem C7_tagged_partial_preserved :
    ∀ (memberName : String) (ps : PatternStx) (fields : List Field) (field : Field)
      (vm : VarMap) (ctx : BindContext),
      findField fields memberName = some field →
      (Pattern.bind ps field.ty vm ctx).1.bad = true →
      Pattern.bind (PatternStx.tagged memberName (some ps)) (Ty.taggedUnion fields) vm ctx
        = (Pattern.invalid
              (some (Pattern.tagged field (some (Pattern.bind ps field.ty vm ctx).1))),
           (Pattern.bind ps field.ty vm ctx).2.1,
           (Pattern.bind ps field.ty vm ctx).2.2) := by
  intro memberName ps fields field vm ctx hfind hbad
  simp [Pattern.bind, hfind, hbad, Pattern.badPattern]

/-- Witness for C7: a tagged-union with one member "m" and a nested
constant pattern whose expression failed to bind: the nested bind is an
Invalid node, and the overall result is an Invalid node wrapping the
fully built Tagged node. -/
theorem C7_tagged_partial_preserved_witness :
    findField [Field.mk "m" 0 (Ty.scalar 1)] "m" = some (Field.mk "m" 0 (Ty.scalar 1))
    ∧ (Pattern.bind (PatternStx.expression ExprOutcome.bad)
          (Field.mk "m" 0 (Ty.scalar 1)).ty [] (BindContext.mk [] [])).1.bad = true
    ∧ Pattern.bind
          (PatternStx.tagged "m" (some (PatternStx.expression ExprOutcome.bad)))
          (Ty.taggedUnion [Field.mk "m" 0 (Ty.scalar 1)]) [] (BindContext.mk [] [])
        = (Pattern.invalid
              (some (Pattern.tagged (Field.mk "m" 0 (Ty.scalar 1))
                (some (Pattern.bind (PatternStx.expression ExprOutcome.bad)
                  (Field.mk "m" 0 (Ty.scalar 1)).ty [] (BindContext.mk [] [])).1))),
           (Pattern.bind (PatternStx.expression ExprOutcome.bad)
              (Field.mk "m" 0 (Ty.scalar 1)).ty [] (BindContext.mk [] [])).2.1,
           (Pattern.bind (PatternStx.expression ExprOutcome.bad)
              (Field.mk "m" 0 (Ty.scalar 1)).ty [] (BindContext.mk [] [])).2.2) :=
  ⟨rfl, rfl,
    C7_tagged_partial_preserved "m" (PatternStx.expression ExprOutcome.bad)
      [Field.mk "m" 0 (Ty.scalar 1)] (Field.mk "m" 0 (Ty.scalar 1)) []
      (BindContext.mk [] []) rfl rfl⟩

/-- Helper: an ordered walk that runs out of members while fields remain
reports `PatternStructTooFew` and sets the bad flag. -/
lemma bindOrdered_too_few (ms : List PatternStx) :
    ∀ (fields : List Field) (idx : Nat) (vm : VarMap) (ctx : BindContext),
      ms.length < fields.length →
      Diag.patternStructTooFew ∈ (bindOrdered ms fields idx vm ctx).2.2.2.diags
      ∧ (bindOrdered ms fields idx vm ctx).2.1 = true := by
  induction ms with
  | nil =>
      intro fields idx vm ctx h
      match fields with
      | [] => simp at h
      | f :: fs => simp [bindOrdered, BindContext.addDiag]
  | cons m ms ih =>
      intro fields idx vm ctx h
      match fields with
      | [] => simp at h
      | f :: fs =>
          have h2 : ms.length < fs.length := by
            simpa [Nat.succ_lt_succ_iff] using h
          have hr := ih fs (idx + 1) (Pattern.bind m f.ty vm ctx).2.1
            (Pattern.bind m f.ty vm ctx).2.2 h2
          constructor
          · simpa only [bindOrdered] using hr.1
          · simp only [bindOrdered]
            simp [hr.2]

/-- Helper: an ordered walk with more members than fields reports
`PatternStructTooMany` at the index of the first excess member (the
start index plus the number of fields) and sets the bad flag. -/
lemma bindOrdered_too_many (ms : List PatternStx) :
    ∀ (fields : List Field) (idx : Nat) (vm : VarMap) (ctx : BindContext),
      fields.length < ms.length →
      Diag.patternStructTooMany (idx + fields.length)
          ∈ (bindOrdered ms fields idx vm ctx).2.2.2.diags
      ∧ (bindOrdered ms fields idx vm ctx).2.1 = true := by
  induction ms with
  | nil => intro fields idx vm ctx h; simp at h
  | cons m ms ih =>
      intro fields idx vm ctx h
      match fields with
      | [] => simp [bindOrdered, BindContext.addDiag]
      | f :: fs =>
          have h2 : fs.length < ms.length := by
            simpa [Nat.succ_lt_succ_iff] using h
          have hr := ih fs (idx + 1) (Pattern.bind m f.ty vm ctx).2.1
            (Pattern.bind m f.ty vm ctx).2.2 h2
          have heq : idx + (f :: fs).length = (idx + 1) + fs.length := by
            simp only [List.length_cons]
            omega
          constructor
          · rw [heq]
            simpa only [bindOrdered] using hr.1
          · simp only [bindOrdered]
            simp [hr.2]

/-- Helper: the ordered walk never looks past the first excess member:
its result depends only on the first `fields.length + 1` members. -/
lemma bindOrdered_take (ms : List PatternStx) :
    ∀ (fields : List Field) (idx : Nat) (vm : VarMap) (ctx : BindContext),
      bindOrdered ms fields idx vm ctx
        = bindOrdered (ms.take (fields.length + 1)) fields idx vm ctx := by
  induction ms with
  | nil => intro fields idx vm ctx; simp
  | cons m ms ih =>
      intro fields idx vm ctx
      match fields with
      | [] => simp [bindOrdered]
      | f :: fs =>
          simp only [List.length_cons, List.take_succ_cons]
          simp only [bindOrdered]
          rw [← ih fs (idx + 1) (Pattern.bind m f.ty vm ctx).2.1
            (Pattern.bind m f.ty vm ctx).2.2]

/-- Helper: an ordered walk over exactly as many members as fields
produces one pair per field, in declared field order. -/
lemma bindOrdered_exact (ms : List PatternStx) :
    ∀ (fields : List Field) (idx : Nat) (vm : VarMap) (ctx : BindContext),
      ms.length = fields.length →
      (bindOrdered ms fields idx vm ctx).1.map Prod.fst = fields
      ∧ (bindOrdered ms fields idx vm ctx).1.length = fields.length := by
  induction ms with
  | nil =>
      intro fields idx vm ctx h
      match fields with
      | [] => simp [bindOrdered]
      | f :: fs => simp at h
  | cons m ms ih =>
      intro fields idx vm ctx h
      match fields with
      | [] => simp at h
      | f :: fs =>
          have h2 : ms.length = fs.length := by simpa using h
          have hr := ih fs (idx + 1) (Pattern.bind m f.ty vm ctx).2.1
            (Pattern.bind m f.ty vm ctx).2.2 h2
          constructor
          · simp only [bindOrdered, List.map_cons, hr.1]
          · simp only [bindOrdered, List.length_cons, hr.2]

/-- Helper: the top-level positional structure bind in terms of the
ordered walk: the Structure node built from the accumulated pairs is
wrapped as the child of an Invalid node exactly when the walk's bad flag
is set, and the walk's final variable map and context are returned. -/
lemma bind_structOrdered_eq (m : PatternStx) (ms : List PatternStx)
    (fields : List Field) (vm : VarMap) (ctx : BindContext) :
    Pattern.bind (PatternStx.structOrdered (m :: ms)) (Ty.structT fields) vm ctx
      = ((if (bindOrdered (m :: ms) fields 0 vm ctx).2.1
            then Pattern.invalid
              (some (Pattern.structureP (bindOrdered (m :: ms) fields 0 vm ctx).1))
            else Pattern.structureP (bindOrdered (m :: ms) fields 0 vm ctx).1),
         (bindOrdered (m :: ms) fields 0 vm ctx).2.2.1,
         (bindOrdered (m :: ms) fields 0 vm ctx).2.2.2) := by
  cases hb : (bindOrdered (m :: ms) fields 0 vm ctx).2.1 <;>
    simp [Pattern.bind, Pattern.badPattern, hb]

/-- Claim C5: positional structural binding against a struct with n
declared fields: fewer than n sub-patterns reports `PatternStructTooFew`
and the result is Invalid; more than n reports `PatternStructTooMany`
at the first excess member (zero-based index n) and the walk consumes no
position past it (its result depends only on the first n + 1 members);
exactly n sub-patterns, when the walk's bad flag is clear, yields the
non-Invalid Structure node with n field/pattern pairs in declared field
order. -/
theorem C5_positional_arity :
    (∀ (ms : List PatternStx) (fields : List Field) (vm : VarMap) (ctx : BindContext),
        ms ≠ [] → ms.length < fields.length →
        Diag.patternStructTooFew
            ∈ (Pattern.bind (PatternStx.structOrdered ms)
                (Ty.structT fields) vm ctx).2.2.diags
        ∧ (Pattern.bind (PatternStx.structOrdered ms)
            (Ty.structT fields) vm ctx).1.bad = true)
    ∧ (∀ (ms : List PatternStx) (fields : List Field) (vm : VarMap) (ctx : BindContext),
        fields.length < ms.length →
        Diag.patternStructTooMany fields.length
            ∈ (Pattern.bind (PatternStx.structOrdered ms)
                (Ty.structT fields) vm ctx).2.2.diags
        ∧ (Pattern.bind (PatternStx.structOrdered ms)
            (Ty.structT fields) vm ctx).1.bad = true)
    ∧ (∀ (ms : List PatternStx) (fields : List Field) (idx : Nat) (vm : VarMap)
        (ctx : BindContext),
        bindOrdered ms fields idx vm ctx
          = bindOrdered (ms.take (fields.length + 1)) fields idx vm ctx)
    ∧ (∀ (ms : List PatternStx) (fields : List Field) (vm : VarMap) (ctx : BindContext),
        ms ≠ [] → ms.length = fields.length →
        (bindOrdered ms fields 0 vm ctx).1.map Prod.fst = fields
        ∧ (bindOrdered ms fields 0 vm ctx).1.length = fields.length
        ∧ Pattern.bad (Pattern.structureP (bindOrdered ms fields 0 vm ctx).1) = false
        ∧ ((bindOrdered ms fields 0 vm ctx).2.1 = false →
            Pattern.bind (PatternStx.structOrdered ms) (Ty.structT fields) vm ctx
              = (Pattern.structureP (bindOrdered ms fields 0 vm ctx).1,
                 (bindOrdered ms fields 0 vm ctx).2.2.1,
                 (bindOrdered ms fields 0 vm ctx).2.2.2))) := by
  refine ⟨fun ms fields vm ctx hne hlt => ?_, fun ms fields vm ctx hlt => ?_,
    fun ms fields idx vm ctx => bindOrdered_take ms fields idx vm ctx,
    fun ms fields vm ctx hne hlen => ?_⟩
  · match ms, hne with
    | m :: ms, _ =>
        have hr := bindOrdered_too_few (m :: ms) fields 0 vm ctx hlt
        rw [bind_structOrdered_eq]
        refine ⟨hr.1, ?_⟩
        simp [hr.2, Pattern.bad]
  · match ms, Nat.not_eq_zero_of_lt hlt with
    | m :: ms, _ =>
        have hr := bindOrdered_too_many (m :: ms) fields 0 vm ctx hlt
        rw [bind_structOrdered_eq]
        refine ⟨by simpa using hr.1, ?_⟩
        simp [hr.2, Pattern.bad]
  · match ms, hne with
    | m :: ms, _ =>
        have hr := bindOrdered_exact (m :: ms) fields 0 vm ctx hlen
        refine ⟨hr.1, hr.2, rfl, fun hgood => ?_⟩
        rw [bind_structOrdered_eq, hgood]
        simp

/-- Witness for C5: a struct with three 1-bit fields a, b, c bound
positionally with two, four and three wildcard sub-patterns. -/
theorem C5_positional_arity_witness :
    (Diag.patternStructTooFew
        ∈ (Pattern.bind (PatternStx.structOrdered
              [PatternStx.wildcard, PatternStx.wildcard])
            (Ty.structT [Field.mk "a" 0 (Ty.scalar 1), Field.mk "b" 1 (Ty.scalar 1),
              Field.mk "c" 2 (Ty.scalar 1)]) [] (BindContext.mk [] [])).2.2.diags
      ∧ (Pattern.bind (PatternStx.structOrdered
            [PatternStx.wildcard, PatternStx.wildcard])
          (Ty.structT [Field.mk "a" 0 (Ty.scalar 1), Field.mk "b" 1 (Ty.scalar 1),
            Field.mk "c" 2 (Ty.scalar 1)]) [] (BindContext.mk [] [])).1.bad = true)
    ∧ (Diag.patternStructTooMany 3
        ∈ (Pattern.bind (PatternStx.structOrdered
              [PatternStx.wildcard, PatternStx.wildcard, PatternStx.wildcard,
                PatternStx.wildcard])
            (Ty.structT [Field.mk "a" 0 (Ty.scalar 1), Field.mk "b" 1 (Ty.scalar 1),
              Field.mk "c" 2 (Ty.scalar 1)]) [] (BindContext.mk [] [])).2.2.diags
      ∧ (Pattern.bind (PatternStx.structOrdered
            [PatternStx.wildcard, PatternStx.wildcard, PatternStx.wildcard,
              PatternStx.wildcard])
          (Ty.structT [Field.mk "a" 0 (Ty.scalar 1), Field.mk "b" 1 (Ty.scalar 1),
            Field.mk "c" 2 (Ty.scalar 1)]) [] (BindContext.mk [] [])).1.bad = true)
    ∧ Pattern.bind (PatternStx.structOrdered
          [PatternStx.wildcard, PatternStx.wildcard, PatternStx.wildcard])
        (Ty.structT [Field.mk "a" 0 (Ty.scalar 1), Field.mk "b" 1 (Ty.scalar 1),
          Field.mk "c" 2 (Ty.scalar 1)]) [] (BindContext.mk [] [])
        = (Pattern.structureP (bindOrdered
            [PatternStx.wildcard, PatternStx.wildcard, PatternStx.wildcard]
            [Field.mk "a" 0 (Ty.scalar 1), Field.mk "b" 1 (Ty.scalar 1),
              Field.mk "c" 2 (Ty.scalar 1)] 0 [] (BindContext.mk [] [])).1,
           (bindOrdered
            [PatternStx.wildcard, PatternStx.wildcard, PatternStx.wildcard]
            [Field.mk "a" 0 (Ty.scalar 1), Field.mk "b" 1 (Ty.scalar 1),
              Field.mk "c" 2 (Ty.scalar 1)] 0 [] (BindContext.mk [] [])).2.2.1,
           (bindOrdered
            [PatternStx.wildcard, PatternStx.wildcard, PatternStx.wildcard]
            [Field.mk "a" 0 (Ty.scalar 1), Field.mk "b" 1 (Ty.scalar 1),
              Field.mk "c" 2 (Ty.scalar 1)] 0 [] (BindContext.mk [] [])).2.2.2) :=
  ⟨C5_positional_arity.1 [PatternStx.wildcard, PatternStx.wildcard]
      [Field.mk "a" 0 (Ty.scalar 1), Field.mk "b" 1 (Ty.scalar 1),
        Field.mk "c" 2 (Ty.scalar 1)] [] (BindContext.mk [] [])
      (List.cons_ne_nil _ _) (by decide),
   C5_positional_arity.2.1
      [PatternStx.wildcard, PatternStx.wildcard, PatternStx.wildcard,
        PatternStx.wildcard]
      [Field.mk "a" 0 (Ty.scalar 1), Field.mk "b" 1 (Ty.scalar 1),
        Field.mk "c" 2 (Ty.scalar 1)] [] (BindContext.mk [] []) (by decide),
   (C5_positional_arity.2.2.2
      [PatternStx.wildcard, PatternStx.wildcard, PatternStx.wildcard]
      [Field.mk "a" 0 (Ty.scalar 1), Field.mk "b" 1 (Ty.scalar 1),
        Field.mk "c" 2 (Ty.scalar 1)] [] (BindContext.mk [] [])
      (List.cons_ne_nil _ _) (by decide)).2.2.2 rfl⟩

/-- Claim C8: binding a Constant pattern whose expression fails to bind
or fails to fold to a constant yields an Invalid node with no child. -/
theorem C8_constant_bad_bind :
    ConstantPattern.fromStx ExprOutcome.bad = Pattern.invalid none
    ∧ ConstantPattern.fromStx ExprOutcome.notConstant = Pattern.invalid none
    ∧ (∀ (t : Ty) (vm : VarMap) (ctx : BindContext),
        Pattern.bind (PatternStx.expression ExprOutcome.bad) t vm ctx
            = (Pattern.invalid none, vm, ctx)
        ∧ Pattern.bind (PatternStx.expression ExprOutcome.notConstant) t vm ctx
            = (Pattern.invalid none, vm, ctx)) :=
  ⟨rfl, rfl, fun _ _ _ => ⟨rfl, rfl⟩⟩

/-- Claim C9: binding a Wildcard pattern against any target type yields
the non-Invalid Wildcard node with the variable map and context
untouched, and evaluating that node against any value returns 1-bit
true with the evaluation context unchanged (in particular for every
non-poisoned value). -/
theorem C9_wildcard :
    (∀ (t : Ty) (vm : VarMap) (ctx : BindContext),
        Pattern.bind PatternStx.wildcard t vm ctx = (Pattern.wildcard, vm, ctx))
    ∧ Pattern.bad Pattern.wildcard = false
    ∧ (∀ (ctx : EvalContext) (v : ConstantValue),
        Pattern.eval Pattern.wildcard ctx v = (svTrue, ctx)) :=
  ⟨fun _ _ _ => rfl, rfl, fun _ _ => rfl⟩

/-- Claim C10: binding a Variable pattern with an empty name yields the
non-Invalid Variable node while leaving the variable map and the whole
binding context (diagnostics and pending-temporaries chain head alike)
unchanged. -/
theorem C10_empty_variable_name :
    ∀ (t : Ty) (vm : VarMap) (ctx : BindContext),
      VariablePattern.fromStx "" t vm ctx
          = (Pattern.variableP (PatternVarSymbol.mk "" t), vm, ctx)
      ∧ Pattern.bind (PatternStx.variableP "") t vm ctx
          = (Pattern.variableP (PatternVarSymbol.mk "" t), vm, ctx)
      ∧ Pattern.bad (Pattern.variableP (PatternVarSymbol.mk "" t)) = false :=
  fun _ _ _ => ⟨rfl, rfl, rfl⟩

end Slang
